import Mathlib

/-!
Verification of the repo2docker build-orchestration pipeline
(`src/repo2docker/app.py`) against its natural-language specification.

The Python source is shallowly embedded into Lean: pure control flow
becomes Lean functions, external effects (git commands, the container
engine, wall-clock time, ephemeral-port allocation) become explicit
oracle parameters, and each staged loop is modelled as a function from
the stream of records it consumes to the trace of observable actions it
performs.
-/

namespace Repo2Docker

/-! ## Build-strategy composition (`compose`, app.py lines 37-44)

A buildpack class is abstracted by an arbitrary type `α` of mixin
constructors.  In the Python source, `buildpacks[0](parent=parent)`
instantiates the first mixin bound to the shared `parent` context and
each later mixin is folded in via `image.compose_with(buildpack(parent=parent))`.
`Ctx` stands for the shared `parent` context object, `Inst` for a mixin
instance bound to a context, and `Composed` for the object produced by
the fold: `base i` is a freshly instantiated first mixin, and
`extendWith img i` is the result of `img.compose_with(i)`. -/

/-- The shared `parent` context passed to every mixin constructor. -/
structure Ctx where
  ctxId : Nat
deriving DecidableEq, Repr

/-- A mixin instance: a constructor applied to a context (`buildpack(parent=parent)`). -/
structure Inst (α : Type) where
  ctor : α
  ctx : Ctx
deriving DecidableEq, Repr

/-- Symbolic composed buildpack object built by `compose`. -/
inductive Composed (α : Type) where
  | base : Inst α → Composed α
  | extendWith : Composed α → Inst α → Composed α
deriving DecidableEq, Repr

/-- `compose(buildpacks, parent)` from app.py lines 37-44:
`image = buildpacks[0](parent=parent)` followed by
`for buildpack in buildpacks[1:]: image = image.compose_with(buildpack(parent=parent))`.
An empty list raises `IndexError` in Python, modelled as `none`. -/
def compose (buildpacks : List α) (parent : Ctx) : Option (Composed α) :=
  match buildpacks with
  | [] => none
  | b :: rest =>
    some (rest.foldl (fun image bp => Composed.extendWith image ⟨bp, parent⟩)
      (Composed.base ⟨b, parent⟩))

/-- The mixin constructors of a composed object, leftmost (base) first. -/
def Composed.ctors : Composed α → List α
  | .base i => [i.ctor]
  | .extendWith img i => img.ctors ++ [i.ctor]

/-- The contexts every mixin instance inside a composed object is bound to. -/
def Composed.ctxs : Composed α → List Ctx
  | .base i => [i.ctx]
  | .extendWith img i => img.ctxs ++ [i.ctx]

theorem compose_cons_eq_foldl (b : α) (rest : List α) (parent : Ctx) :
    compose (b :: rest) parent =
      some (rest.foldl (fun image bp => Composed.extendWith image ⟨bp, parent⟩)
        (Composed.base ⟨b, parent⟩)) := rfl

theorem foldl_extendWith_append (parent : Ctx) (img : Composed α) (l₁ l₂ : List α) :
    (l₁ ++ l₂).foldl (fun image bp => Composed.extendWith image ⟨bp, parent⟩) img =
      l₂.foldl (fun image bp => Composed.extendWith image ⟨bp, parent⟩)
        (l₁.foldl (fun image bp => Composed.extendWith image ⟨bp, parent⟩) img) :=
  List.foldl_append ..

theorem compose_append_last (b : α) (rest : List α) (c : α) (parent : Ctx) :
    compose (b :: rest ++ [c]) parent =
      (compose (b :: rest) parent).map (fun img => Composed.extendWith img ⟨c, parent⟩) := by
  simp [compose, foldl_extendWith_append]

theorem ctors_foldl_extendWith (parent : Ctx) (img : Composed α) (l : List α) :
    (l.foldl (fun image bp => Composed.extendWith image ⟨bp, parent⟩) img).ctors =
      img.ctors ++ l := by
  induction l generalizing img with
  | nil => simp
  | cons c cs ih => simp [List.foldl_cons, ih, Composed.ctors]

theorem ctxs_foldl_extendWith (parent : Ctx) (img : Composed α) (l : List α) :
    (l.foldl (fun image bp => Composed.extendWith image ⟨bp, parent⟩) img).ctxs =
      img.ctxs ++ l.map (fun _ => parent) := by
  induction l generalizing img with
  | nil => simp
  | cons c cs ih => simp [List.foldl_cons, ih, Composed.ctxs]

/-- C5: for every non-empty chain of mixins, `compose` instantiates the first
mixin bound to the shared context and folds the remaining mixins strictly
left-to-right, each step extending the current composed instance with the
next mixin bound to the same context.  Composition never re-orders mixins
(the in-order constructor list of the result is exactly the input chain,
and every embedded instance is bound to `parent`), and composing
`b :: rest ++ [c]` is exactly the composition of `b :: rest` extended once
more with `c`. -/
theorem C5_compose_left_fold (b : α) (rest : List α) (c : α) (parent : Ctx) :
    (compose (b :: rest) parent =
        some (rest.foldl (fun image bp => Composed.extendWith image ⟨bp, parent⟩)
          (Composed.base ⟨b, parent⟩)))
    ∧ (∀ img, compose (b :: rest) parent = some img →
        img.ctors = b :: rest ∧ img.ctxs = (b :: rest).map (fun _ => parent))
    ∧ compose (b :: rest ++ [c]) parent =
        (compose (b :: rest) parent).map (fun img => Composed.extendWith img ⟨c, parent⟩) := by
  refine ⟨rfl, ?_, compose_append_last b rest c parent⟩
  intro img himg
  have h : img = rest.foldl (fun image bp => Composed.extendWith image ⟨bp, parent⟩)
      (Composed.base ⟨b, parent⟩) := by
    simpa [compose] using himg.symm
  subst h
  constructor
  · simpa [Composed.ctors] using ctors_foldl_extendWith parent (Composed.base ⟨b, parent⟩) rest
  · simpa [Composed.ctxs] using ctxs_foldl_extendWith parent (Composed.base ⟨b, parent⟩) rest

/-- Witness for C5 at a concrete three-mixin chain. -/
theorem C5_compose_left_fold_witness :
    compose ["A", "B", "C"] ⟨0⟩ =
      some (Composed.extendWith (Composed.extendWith (Composed.base ⟨"A", ⟨0⟩⟩) ⟨"B", ⟨0⟩⟩)
        ⟨"C", ⟨0⟩⟩)
    ∧ (Composed.extendWith (Composed.extendWith (Composed.base ⟨"A", ⟨0⟩⟩) ⟨"B", ⟨0⟩⟩)
        ⟨"C", ⟨0⟩⟩ : Composed String).ctors = ["A", "B", "C"] := by
  have h := C5_compose_left_fold "A" ["B"] "C" ⟨0⟩
  refine ⟨by simpa using h.2.2, ?_⟩
  have h2 := (h.2.1 (Composed.extendWith (Composed.base ⟨"A", ⟨0⟩⟩) ⟨"B", ⟨0⟩⟩) (by rfl)).1
  simp [Composed.ctors] at h2 ⊢

/-! ## Strategy selection (`Repo2Docker.start`, app.py lines 368-374)

The selection loop is
`picked_buildpack = compose(self.default_buildpack, parent=self)` followed by
`for bp_spec in self.buildpacks: bp = compose(bp_spec, parent=self); if bp.detect(): picked_buildpack = bp; break`.
Each composed strategy is abstracted by the boolean its `detect()` call
returns; since in Python the default composed object is a distinct fresh
object, "which strategy ended up selected" is modelled by `Selected`
(the default, or the catalog entry at a given index).  The selector also
returns the number of `detect()` calls it made, to capture
short-circuiting. -/

/-- A composed catalog entry, abstracted by what its `detect()` returns. -/
structure Strategy where
  detectResult : Bool
deriving DecidableEq, Repr

/-- Which strategy the loop left in `picked_buildpack`. -/
inductive Selected where
  | defaultPack : Selected
  | entry : Nat → Selected
deriving DecidableEq, Repr

/-- The `for bp_spec in self.buildpacks` loop (app.py lines 370-374), carrying
the index of the entry under scrutiny; returns the selection outcome and the
number of `detect()` calls performed. -/
def selectLoop : List Strategy → Nat → Selected × Nat
  | [], _ => (.defaultPack, 0)
  | bp :: rest, i =>
    if bp.detectResult then (.entry i, 1)
    else
      let r := selectLoop rest (i + 1)
      (r.1, r.2 + 1)

/-- Strategy selection over the whole catalog, starting from the composed
default (app.py lines 368-374). -/
def selectStrategy (catalog : List Strategy) : Selected × Nat :=
  selectLoop catalog 0

theorem selectLoop_no_match (catalog : List Strategy) (i : Nat)
    (h : ∀ s ∈ catalog, s.detectResult = false) :
    selectLoop catalog i = (.defaultPack, catalog.length) := by
  induction catalog generalizing i with
  | nil => rfl
  | cons bp rest ih =>
    have hbp : bp.detectResult = false := h bp (by simp)
    simp [selectLoop, hbp, ih (i + 1) (fun s hs => h s (by simp [hs]))]

theorem selectLoop_first_match (pre : List Strategy) (s : Strategy) (post : List Strategy)
    (i : Nat) (hpre : ∀ t ∈ pre, t.detectResult = false) (hs : s.detectResult = true) :
    selectLoop (pre ++ s :: post) i = (.entry (i + pre.length), pre.length + 1) := by
  induction pre generalizing i with
  | nil => simp [selectLoop, hs]
  | cons bp rest ih =>
    have hbp : bp.detectResult = false := hpre bp (by simp)
    have := ih (i + 1) (fun t ht => hpre t (by simp [ht]))
    simp only [List.cons_append, selectLoop, hbp, Bool.false_eq_true, if_false,
      List.append_eq, this, List.length_cons, Prod.mk.injEq, Selected.entry.injEq]
    exact ⟨by omega, trivial⟩

theorem selectLoop_default_all_false (catalog : List Strategy) (i : Nat)
    (h : (selectLoop catalog i).1 = .defaultPack) :
    ∀ s ∈ catalog, s.detectResult = false := by
  induction catalog generalizing i with
  | nil => simp
  | cons bp rest ih =>
    by_cases hbp : bp.detectResult
    · simp [selectLoop, hbp] at h
    · intro s hs
      rcases List.mem_cons.mp hs with hh | hh
      · simpa [hh] using hbp
      · exact ih (i + 1) (by simpa [selectLoop, hbp] using h) s hh

/-- C1: strategy selection is first-match-wins over the catalog in declared
order.  Writing the catalog as `pre ++ s :: post` where nothing in `pre`
detects and `s` detects, the entry at index `pre.length` is selected and
exactly `pre.length + 1` `detect()` calls are made (short-circuit: no entry
after the first match is probed); the composed default is selected if and
only if no catalog entry's `detect()` returns true, in which case every
entry's `detect()` was called exactly once.  Determinism over fixed catalog
and repository contents is immediate: `selectStrategy` is a pure function of
the catalog. -/
theorem C1_selector_first_match_wins (catalog : List Strategy) :
    (∀ pre s post, catalog = pre ++ s :: post →
        (∀ t ∈ pre, t.detectResult = false) → s.detectResult = true →
        selectStrategy catalog = (.entry pre.length, pre.length + 1))
    ∧ ((∀ s ∈ catalog, s.detectResult = false) →
        selectStrategy catalog = (.defaultPack, catalog.length))
    ∧ ((selectStrategy catalog).1 = .defaultPack ↔ ∀ s ∈ catalog, s.detectResult = false) := by
  refine ⟨?_, fun h => selectLoop_no_match catalog 0 h, ?_, ?_⟩
  · intro pre s post hcat hpre hs
    rw [selectStrategy, hcat]
    simpa using selectLoop_first_match pre s post 0 hpre hs
  · exact fun h => selectLoop_default_all_false catalog 0 h
  · intro h
    rw [selectStrategy, selectLoop_no_match catalog 0 h]

/-- Witness for C1 on a concrete catalog where the second entry detects. -/
theorem C1_selector_first_match_wins_witness :
    selectStrategy [⟨false⟩, ⟨true⟩, ⟨true⟩] = (.entry 1, 2) :=
  (C1_selector_first_match_wins [⟨false⟩, ⟨true⟩, ⟨true⟩]).1
    [⟨false⟩] ⟨true⟩ [⟨true⟩] rfl (by decide) rfl

end Repo2Docker

/-! ## Build stage event loop (`Repo2Docker.start`, app.py lines 380-389)

The build loop classifies each raw progress record by key presence, in
the source's `if`/`elif` order: `'stream' in l` first, then `'error'`,
then `'status'`, with a JSON-dump fallback.  A record is a dictionary;
key presence of the three recognised keys is modelled with `Option`
fields (`raw` stands for the rest of the dictionary, used only by the
fallback).  The loop returns one log entry per consumed record plus the
process exit request: `some 1` models `sys.exit(1)` and `none` models
falling through the loop normally. -/

/-- A raw build-progress record, by presence of its recognised keys. -/
structure BuildRecord where
  stream : Option String := none
  error : Option String := none
  status : Option String := none
  raw : String := ""
deriving DecidableEq, Repr

/-- One log line emitted by the build loop. -/
inductive BuildLog where
  | streamed : String → BuildLog
  | errored : String → BuildLog
  | fetchingBase : BuildLog
  | dumped : String → BuildLog
deriving DecidableEq, Repr

/-- The `for l in picked_buildpack.build(...)` loop (app.py lines 380-389):
`if 'stream' in l` log and continue; `elif 'error' in l` log and
`sys.exit(1)`; `elif 'status' in l` log a generic fetching line and
continue; `else` log the dumped record and continue.  Returns the emitted
log lines (one per consumed record) and `some 1` when `sys.exit(1)` fired. -/
def buildStage : List BuildRecord → List BuildLog × Option Nat
  | [] => ([], none)
  | l :: rest =>
    match l.stream with
    | some s =>
      let r := buildStage rest
      (.streamed s :: r.1, r.2)
    | none =>
      match l.error with
      | some e => ([.errored e], some 1)
      | none =>
        match l.status with
        | some _ =>
          let r := buildStage rest
          (.fetchingBase :: r.1, r.2)
        | none =>
          let r := buildStage rest
          (.dumped l.raw :: r.1, r.2)

/-- A record that the source's `elif` chain classifies as an error:
it lacks `stream` and carries `error`. -/
def errClassified (l : BuildRecord) : Prop :=
  l.stream = none ∧ l.error.isSome

instance : DecidablePred errClassified := fun l => by
  unfold errClassified
  infer_instance

theorem buildStage_no_err (rs : List BuildRecord)
    (h : ∀ l ∈ rs, ¬ errClassified l) :
    (buildStage rs).1.length = rs.length ∧ (buildStage rs).2 = none := by
  induction rs with
  | nil => simp [buildStage]
  | cons l rest ih =>
    have hl : ¬ errClassified l := h l (by simp)
    have hrest := ih (fun t ht => h t (by simp [ht]))
    rcases hstream : l.stream with _ | s
    · rcases herr : l.error with _ | e
      · rcases hstat : l.status with _ | st
        · simp [buildStage, hstream, herr, hstat, hrest.1, hrest.2]
        · simp [buildStage, hstream, herr, hstat, hrest.1, hrest.2]
      · exact absurd ⟨hstream, by simp [herr]⟩ hl
    · simp [buildStage, hstream, hrest.1, hrest.2]

/-- C2, amended: the build loop checks for a `stream` key before an `error`
key, so the records that abort are exactly those with an `error` field and
no `stream` field.  When the stream of records is `pre ++ l :: post` with
no record of `pre` error-classified and `l` error-classified, the loop
consumes exactly `pre.length + 1` records (nothing after `l` is consumed,
whatever `post` holds) and requests process exit code 1. -/
theorem C2_build_error_halts (pre : List BuildRecord) (l : BuildRecord)
    (post : List BuildRecord) (hpre : ∀ t ∈ pre, ¬ errClassified t)
    (hl : errClassified l) :
    (buildStage (pre ++ l :: post)).1.length = pre.length + 1
    ∧ (buildStage (pre ++ l :: post)).2 = some 1 := by
  induction pre with
  | nil =>
    obtain ⟨hstream, herr⟩ := hl
    rcases herrv : l.error with _ | e
    · simp [herrv] at herr
    · simp [buildStage, hstream, herrv]
  | cons t rest ih =>
    have ht : ¬ errClassified t := hpre t (by simp)
    have hrest := ih (fun u hu => hpre u (by simp [hu]))
    rcases hstream : t.stream with _ | s
    · rcases herr : t.error with _ | e
      · rcases hstat : t.status with _ | st
        · simpa [buildStage, hstream, herr, hstat, hrest.2] using hrest.1
        · simpa [buildStage, hstream, herr, hstat, hrest.2] using hrest.1
      · exact absurd ⟨hstream, by simp [herr]⟩ ht
    · simpa [buildStage, hstream, hrest.2] using hrest.1

/-- Witness for C2's amended theorem: a stream record followed by an
error-classified record and a trailing success-looking record; exactly two
records are consumed and exit code 1 is requested. -/
theorem C2_build_error_halts_witness :
    (buildStage [{ stream := some "ok" }, { error := some "boom" },
        { stream := some "late success" }]).1.length = 2
    ∧ (buildStage [{ stream := some "ok" }, { error := some "boom" },
        { stream := some "late success" }]).2 = some 1 :=
  C2_build_error_halts [{ stream := some "ok" }] { error := some "boom" }
    [{ stream := some "late success" }] (by decide) (by constructor <;> simp)

/-- Counterexample to C2 as stated: a record carrying both `stream` and
`error` keys contains an `error` field, yet the loop classifies it as a
stream record (the `elif` chain tests `stream` first), consumes the record
after it, and finishes with no exit request at all. -/
theorem C2_counterexample :
    ({ stream := some "s", error := some "e" } : BuildRecord).error.isSome = true
    ∧ buildStage [{ stream := some "s", error := some "e" }, { stream := some "ok" }]
        = ([.streamed "s", .streamed "ok"], none) := by
  constructor
  · rfl
  · rfl

/-! ## Repository fetch (`Repo2Docker.fetch`, app.py lines 93-150)

`fetch` drives four git commands through the helpers `_clone`,
`_contains`, `_unshallow` and `_checkout`.  The external git capability
is an oracle `GitEnv` saying which command succeeds; `_contains` runs
`git cat-file -t ref` and maps a failing command to `False`.  `fetch`
is modelled as the ordered trace of git commands it runs, together with
the message of the `RuntimeError` it raises (`none` on success):
`_clone(depth=50)`, then `_unshallow()` exactly when `_contains(ref)` is
false, then `_checkout(ref)`, each failure aborting immediately. -/

/-- Success/failure of each git command for one invocation. -/
structure GitEnv where
  cloneOk : Bool
  containsRef : Bool
  unshallowOk : Bool
  checkoutOk : Bool
deriving DecidableEq, Repr

/-- One git command issued by `fetch` (the clone carries its `--depth`). -/
inductive GitOp where
  | cloneCmd : Option Nat → GitOp
  | catFileCmd : GitOp
  | unshallowCmd : GitOp
  | resetHardCmd : GitOp
deriving DecidableEq, Repr

/-- `RuntimeError("Failed to clone %s." % url)` (app.py line 107). -/
def cloneFailMsg (url : String) : String :=
  "Failed to clone " ++ url ++ "."

/-- `RuntimeError("Failed to create a full clone of %s." % url)` (app.py lines 118-119). -/
def unshallowFailMsg (url : String) : String :=
  "Failed to create a full clone of " ++ url ++ "."

/-- `RuntimeError("Failed to checkout reference %s for %s." % (ref, url))`
(app.py lines 141-142). -/
def checkoutFailMsg (ref url : String) : String :=
  "Failed to checkout reference " ++ ref ++ " for " ++ url ++ "."

/-- `Repo2Docker.fetch` (app.py lines 93-150): the trace of git commands run,
and the raised `RuntimeError` message (`none` when fetch succeeds). -/
def fetch (env : GitEnv) (url ref : String) : List GitOp × Option String :=
  let t0 := [GitOp.cloneCmd (some 50)]
  if !env.cloneOk then (t0, some (cloneFailMsg url))
  else
    let t1 := t0 ++ [GitOp.catFileCmd]
    if !env.containsRef then
      let t2 := t1 ++ [GitOp.unshallowCmd]
      if !env.unshallowOk then (t2, some (unshallowFailMsg url))
      else if !env.checkoutOk then (t2 ++ [GitOp.resetHardCmd], some (checkoutFailMsg ref url))
      else (t2 ++ [GitOp.resetHardCmd], none)
    else if !env.checkoutOk then (t1 ++ [GitOp.resetHardCmd], some (checkoutFailMsg ref url))
    else (t1 ++ [GitOp.resetHardCmd], none)

/-- C3: `fetch` always issues the shallow clone with `--depth 50` first; when
the revision-existence probe succeeds no unshallow command is ever issued;
when it fails (after a successful clone) exactly one unshallow command is
issued, and it sits right before the hard reset; and every successful run
ends with the hard reset. -/
theorem C3_fetch_shallow_then_unshallow (env : GitEnv) (url ref : String) :
    ((fetch env url ref).1.head? = some (.cloneCmd (some 50)))
    ∧ (env.containsRef = true → GitOp.unshallowCmd ∉ (fetch env url ref).1)
    ∧ (env.cloneOk = true → env.containsRef = false →
        (fetch env url ref).1 =
          [.cloneCmd (some 50), .catFileCmd, .unshallowCmd]
            ++ (if env.unshallowOk then [GitOp.resetHardCmd] else []))
    ∧ ((fetch env url ref).2 = none → (fetch env url ref).1.getLast? = some .resetHardCmd) := by
  obtain ⟨co, cr, uo, ko⟩ := env
  cases co <;> cases cr <;> cases uo <;> cases ko <;>
    refine ⟨by simp [fetch], by simp [fetch]; try decide, by simp [fetch], by simp [fetch]⟩

/-- Witness for C3: with a revision beyond the shallow history the trace is
shallow clone, probe, one unshallow, then the hard reset. -/
theorem C3_fetch_shallow_then_unshallow_witness :
    (fetch ⟨true, false, true, true⟩ "http://x/y" "abc123").1 =
      [.cloneCmd (some 50), .catFileCmd, .unshallowCmd, .resetHardCmd] := by
  have h := (C3_fetch_shallow_then_unshallow ⟨true, false, true, true⟩ "http://x/y"
    "abc123").2.2.1 rfl rfl
  simpa using h

/-- Counterexample to C8 as stated: the clone-step failure message
`"Failed to clone http://x/y."` carries the source location but not the
target revision `"abc123"`. -/
theorem C8_counterexample :
    (fetch ⟨false, true, true, true⟩ "http://x/y" "abc123").2
      = some "Failed to clone http://x/y."
    ∧ ¬ ("abc123".toList <:+: "Failed to clone http://x/y.".toList) := by
  constructor
  · rfl
  · decide

/-- C8, amended: every fetch-stage failure is fatal with no retry — a failing
clone aborts with nothing further attempted, a failing unshallow aborts
before the checkout, and no git command is ever issued twice — and every
failure message includes the source location; the checkout failure message
includes both the source location and the target revision, while the clone
and unshallow messages include only the source location. -/
theorem C8_fetch_failures_fatal (env : GitEnv) (url ref : String) :
    (∀ op : GitOp, ((fetch env url ref).1.count op) ≤ 1)
    ∧ (env.cloneOk = false →
        fetch env url ref = ([.cloneCmd (some 50)], some (cloneFailMsg url)))
    ∧ (env.cloneOk = true → env.containsRef = false → env.unshallowOk = false →
        fetch env url ref =
          ([.cloneCmd (some 50), .catFileCmd, .unshallowCmd], some (unshallowFailMsg url)))
    ∧ (∀ m, (fetch env url ref).2 = some m → url.toList <:+: m.toList)
    ∧ ref.toList <:+: (checkoutFailMsg ref url).toList := by
  have hclone : url.toList <:+: (cloneFailMsg url).toList :=
    ⟨"Failed to clone ".toList, ".".toList, by simp [cloneFailMsg, String.toList]⟩
  have hunsh : url.toList <:+: (unshallowFailMsg url).toList :=
    ⟨"Failed to create a full clone of ".toList, ".".toList,
      by simp [unshallowFailMsg, String.toList]⟩
  have hco : url.toList <:+: (checkoutFailMsg ref url).toList :=
    ⟨("Failed to checkout reference " ++ ref ++ " for ").toList, ".".toList,
      by simp [checkoutFailMsg, String.toList]⟩
  have hcoref : ref.toList <:+: (checkoutFailMsg ref url).toList :=
    ⟨"Failed to checkout reference ".toList, (" for " ++ url ++ ".").toList,
      by simp [checkoutFailMsg, String.toList]⟩
  obtain ⟨co, cr, uo, ko⟩ := env
  cases co <;> cases cr <;> cases uo <;> cases ko <;>
    refine ⟨by intro op; (cases op <;> simp [fetch, List.count_cons]); all_goals (split <;> simp),
      by simp [fetch], by simp [fetch], ?_, hcoref⟩ <;>
  · intro m hm
    first
      | (simp [fetch] at hm; rw [← hm]
         first | exact hclone | exact hunsh | exact hco)
      | simp [fetch] at hm

/-- Witness for C8's amended theorem: a failing clone aborts at once, with
nothing further attempted and the clone failure message raised. -/
theorem C8_fetch_failures_fatal_witness :
    fetch ⟨false, true, true, true⟩ "http://x/y" "abc123"
      = ([.cloneCmd (some 50)], some (cloneFailMsg "http://x/y")) :=
  (C8_fetch_failures_fatal ⟨false, true, true, true⟩ "http://x/y" "abc123").2.1 rfl

/-! ## Container run stage (`Repo2Docker.run_image`, app.py lines 313-343)

Launch configuration (lines 315-328): `port = self._get_free_port()` is
always called once; with no explicit command a second ephemeral port is
drawn, stringified, published as `{'%s/tcp' % port: port}` and baked into
the default notebook command; with an explicit command the port mapping
is empty and the command is used verbatim.  The ephemeral-port allocator
is an oracle `freePort : Nat → Nat` giving the result of the k-th
`_get_free_port()` call; the model returns the launch configuration and
the number of allocator calls made.

Log streaming and teardown (lines 333-343): the `try`/`finally` around
`container.logs(stream=True)` guarantees that on every exit path — the
stream ending normally or raising after a prefix — the container is
reloaded, killed if still running, its exit code read, the container
removed, and `sys.exit(exit_code)` issued.  The stream is a list of log
lines plus an optional failure point `failAfter` (the stream raises after
that many lines); the container's status after streaming and its terminal
exit code are oracle inputs. -/

/-- Container launch configuration passed to `client.containers.run`. -/
structure LaunchCfg where
  ports : List (String × String)
  command : List String
deriving DecidableEq, Repr

/-- The launch-configuration part of `run_image` (app.py lines 315-322),
given the `self.run_cmd` list and the ephemeral-port oracle; also returns
how many `_get_free_port()` calls were made. -/
def runImageConfig (runCmd : List String) (freePort : Nat → Nat) : LaunchCfg × Nat :=
  -- port = self._get_free_port()
  if runCmd.isEmpty then
    -- port = str(self._get_free_port())
    let port := toString (freePort 1)
    ({ ports := [(port ++ "/tcp", port)],
       command := ["jupyter", "notebook", "--ip", "0.0.0.0", "--port", port] }, 2)
  else
    ({ ports := [], command := runCmd }, 1)

/-- Counterexample to C10 as stated: with no explicit command the source
calls `_get_free_port()` twice (line 315 and line 317), so two ephemeral
ports are chosen — here 5000 and then 5001 — not exactly one; only the
second is published. -/
theorem C10_counterexample :
    (runImageConfig [] (fun k => 5000 + k)).2 = 2
    ∧ (runImageConfig [] (fun k => 5000 + k)).1.ports = [("5001/tcp", "5001")] := by
  constructor
  · rfl
  · rfl

/-- C10, amended: with an explicit run command the container is launched
with an empty port mapping and the supplied command verbatim (one ephemeral
port is still allocated but unused); with no explicit command two ephemeral
ports are allocated, the first is discarded, and exactly one port — the
second allocation — is published with identical container and host port
numbers, the default notebook command binding to that same port. -/
theorem C10_launch_config (runCmd : List String) (freePort : Nat → Nat) :
    (runCmd ≠ [] →
        runImageConfig runCmd freePort = ({ ports := [], command := runCmd }, 1))
    ∧ (runCmd = [] →
        (runImageConfig runCmd freePort).2 = 2
        ∧ (runImageConfig runCmd freePort).1.ports =
            [(toString (freePort 1) ++ "/tcp", toString (freePort 1))]
        ∧ (runImageConfig runCmd freePort).1.command =
            ["jupyter", "notebook", "--ip", "0.0.0.0", "--port", toString (freePort 1)]) := by
  constructor
  · intro h
    simp [runImageConfig, h]
  · intro h
    subst h
    refine ⟨rfl, rfl, rfl⟩

/-- Witness for C10's amended theorem at a concrete command and allocator. -/
theorem C10_launch_config_witness :
    runImageConfig ["echo", "hi"] (fun k => 5000 + k)
      = ({ ports := [], command := ["echo", "hi"] }, 1)
    ∧ (runImageConfig [] (fun k => 7000 + 2 * k)).1.ports = [("7002/tcp", "7002")] :=
  ⟨(C10_launch_config ["echo", "hi"] (fun k => 5000 + k)).1 (by simp),
   ((C10_launch_config [] (fun k => 7000 + 2 * k)).2 rfl).2.1.trans (by rfl)⟩

/-- One observable action of the log-streaming/teardown step. -/
inductive RunAct where
  | logLine : String → RunAct
  | killContainer : RunAct
  | removeContainer : RunAct
  | exitWith : Nat → RunAct
deriving DecidableEq, Repr

/-- The `finally` block of app.py lines 336-343: reload, kill when the
container still reports `running`, read the terminal exit code, remove the
container, `sys.exit(exit_code)`. -/
def finallyActs (runningAtEnd : Bool) (exitCode : Nat) : List RunAct :=
  (if runningAtEnd then [RunAct.killContainer] else [])
    ++ [RunAct.removeContainer, RunAct.exitWith exitCode]

/-- The log-streaming step with its `try`/`finally` (app.py lines 333-343):
the stream yields `logs`, raising after `failAfter` lines when
`failAfter = some k`; afterwards the container reports `runningAtEnd` and
terminal exit code `exitCode`. -/
def runStreamStep (logs : List String) (failAfter : Option Nat)
    (runningAtEnd : Bool) (exitCode : Nat) : List RunAct :=
  (match failAfter with
   | none => logs.map RunAct.logLine
   | some k => (logs.take k).map RunAct.logLine)
    ++ finallyActs runningAtEnd exitCode

/-- C4: on every exit path out of the log-streaming step — the stream ending
normally, the stream raising at any point, with or without a kill of a
still-running container — the container is removed, and the process exits
with the container's terminal exit code as the very last action; in
particular a container that exited with code 3 yields process exit code 3,
with the removal happening right before. -/
theorem C4_run_teardown (logs : List String) (failAfter : Option Nat)
    (runningAtEnd : Bool) (exitCode : Nat) :
    RunAct.removeContainer ∈ runStreamStep logs failAfter runningAtEnd exitCode
    ∧ (runStreamStep logs failAfter runningAtEnd exitCode).getLast? =
        some (.exitWith exitCode)
    ∧ (runStreamStep logs failAfter runningAtEnd exitCode).dropLast.getLast? =
        some .removeContainer := by
  refine ⟨?_, ?_, ?_⟩
  · rcases failAfter with _ | k <;> cases runningAtEnd <;>
      simp [runStreamStep, finallyActs]
  · rcases failAfter with _ | k <;> cases runningAtEnd <;>
      simp [runStreamStep, finallyActs, List.getLast?_append]
  · rcases failAfter with _ | k <;> cases runningAtEnd <;>
      simp [runStreamStep, finallyActs, List.dropLast_append_cons,
        List.getLast?_append]

/-! ## Invocation state and stage order (`initialize` lines 235-290, `start` lines 356-398)

`initialize` classifies the repository as local (the path exists on disk)
or remote, and sets `cleanup_checkout` to `False` for local sources and to
`args.clean` for remote ones; `build=False` forces `run` and `push` off.
`start` then runs the stages in source order: fetch (remote only), the
build loop, `shutil.rmtree(checkout_path)` when `cleanup_checkout`, then
push, then run.  `startTrace` is the stage trace on the path where no
stage calls `sys.exit` early. -/

/-- Repository classification from `os.path.exists(args.repo)`. -/
inductive RepoType where
  | localRepo : RepoType
  | remoteRepo : RepoType
deriving DecidableEq, Repr

/-- The command-line inputs that determine stage scheduling. -/
structure Args where
  repoExistsLocally : Bool
  clean : Bool
  buildArg : Bool
  pushArg : Bool
  runArg : Bool
deriving DecidableEq, Repr

/-- Invocation flags after `initialize` (app.py lines 243-253 and 280-290). -/
structure InitState where
  repoType : RepoType
  cleanupCheckout : Bool
  buildFlag : Bool
  pushFlag : Bool
  runFlag : Bool
deriving DecidableEq, Repr

/-- `Repo2Docker.initialize`: local sources never schedule checkout removal;
remote sources schedule it according to `--no-clean`; `--no-build` disables
run and push. -/
def initState (a : Args) : InitState :=
  { repoType := if a.repoExistsLocally then .localRepo else .remoteRepo
    cleanupCheckout := if a.repoExistsLocally then false else a.clean
    buildFlag := a.buildArg
    pushFlag := if a.buildArg then a.pushArg else false
    runFlag := if a.buildArg then a.runArg else false }

/-- One stage of `Repo2Docker.start`, in source order. -/
inductive StageEv where
  | fetchEv : StageEv
  | buildEv : StageEv
  | cleanupEv : StageEv
  | pushEv : StageEv
  | runEv : StageEv
deriving DecidableEq, Repr

/-- The stage trace of `Repo2Docker.start` (app.py lines 356-398) when no
stage exits the process early: fetch for remote repositories, the build
loop when building, `shutil.rmtree` of the checkout when scheduled, then
push, then run. -/
def startTrace (st : InitState) : List StageEv :=
  (if st.repoType = .remoteRepo then [StageEv.fetchEv] else [])
    ++ (if st.buildFlag then [StageEv.buildEv] else [])
    ++ (if st.cleanupCheckout then [StageEv.cleanupEv] else [])
    ++ (if st.pushFlag then [StageEv.pushEv] else [])
    ++ (if st.runFlag then [StageEv.runEv] else [])

/-- Counterexample to C7 as stated: for a remote repository with cleaning,
building, pushing and running all enabled, the checkout removal happens at
position 2 of the stage trace, strictly before the push and run stages —
not after all downstream stages have completed. -/
theorem C7_counterexample :
    startTrace (initState ⟨false, true, true, true, true⟩) =
      [.fetchEv, .buildEv, .cleanupEv, .pushEv, .runEv]
    ∧ (startTrace (initState ⟨false, true, true, true, true⟩)).indexOf .cleanupEv
        < (startTrace (initState ⟨false, true, true, true, true⟩)).indexOf .pushEv
    ∧ (startTrace (initState ⟨false, true, true, true, true⟩)).indexOf .cleanupEv
        < (startTrace (initState ⟨false, true, true, true, true⟩)).indexOf .runEv := by
  refine ⟨rfl, ?_, ?_⟩ <;> decide

/-- C7, amended: the checkout path is removed at most once per invocation,
only when the source repository was remote and cleaning was requested, and
the removal happens after the build stage but before the publish and run
stages. -/
theorem C7_cleanup_position (el cl bu pu ru : Bool) :
    ((startTrace (initState ⟨el, cl, bu, pu, ru⟩)).count .cleanupEv ≤ 1)
    ∧ (StageEv.cleanupEv ∈ startTrace (initState ⟨el, cl, bu, pu, ru⟩) →
        (initState ⟨el, cl, bu, pu, ru⟩).repoType = .remoteRepo ∧ cl = true)
    ∧ (StageEv.cleanupEv ∈ startTrace (initState ⟨el, cl, bu, pu, ru⟩) →
        StageEv.buildEv ∈ startTrace (initState ⟨el, cl, bu, pu, ru⟩) →
        (startTrace (initState ⟨el, cl, bu, pu, ru⟩)).indexOf .buildEv
          < (startTrace (initState ⟨el, cl, bu, pu, ru⟩)).indexOf .cleanupEv)
    ∧ (StageEv.cleanupEv ∈ startTrace (initState ⟨el, cl, bu, pu, ru⟩) →
        StageEv.pushEv ∈ startTrace (initState ⟨el, cl, bu, pu, ru⟩) →
        (startTrace (initState ⟨el, cl, bu, pu, ru⟩)).indexOf .cleanupEv
          < (startTrace (initState ⟨el, cl, bu, pu, ru⟩)).indexOf .pushEv)
    ∧ (StageEv.cleanupEv ∈ startTrace (initState ⟨el, cl, bu, pu, ru⟩) →
        StageEv.runEv ∈ startTrace (initState ⟨el, cl, bu, pu, ru⟩) →
        (startTrace (initState ⟨el, cl, bu, pu, ru⟩)).indexOf .cleanupEv
          < (startTrace (initState ⟨el, cl, bu, pu, ru⟩)).indexOf .runEv) := by
  revert el cl bu pu ru
  decide

/-- Witness for C7's amended theorem on the all-stages-enabled remote case. -/
theorem C7_cleanup_position_witness :
    (initState ⟨false, true, true, false, true⟩).repoType = .remoteRepo ∧ true = true :=
  (C7_cleanup_position false true true false true).2.1 (by decide)

/-! ## Image push stage (`Repo2Docker.push_image`, app.py lines 293-311)

Each decoded push-progress record is a dictionary; the recognised keys
are modelled as `Option` fields, `progressDetail`'s value being itself a
dictionary whose Python truthiness is non-emptiness.  The loop keeps an
aggregated per-layer snapshot `layers` and a `last_emit_time`; wall-clock
time is modelled by stamping each record with the `time.time()` value
observed while handling it (`ℚ`-valued).  An `error` key logs and calls
`sys.exit(1)`; a record without `id` is skipped entirely (`continue`,
so it cannot trigger an emission); otherwise the snapshot entry for the
record's layer becomes its truthy `progressDetail`, or else its
`status` — a missing `status` key then raises an unhandled `KeyError`.
After an update, the aggregated snapshot is emitted only when more than
1.5 seconds of wall-clock time passed since the last emission. -/

/-- A decoded push-progress record, by presence of its recognised keys. -/
structure PushRecord where
  error : Option String := none
  id : Option String := none
  progressDetail : Option (List (String × String)) := none
  status : Option String := none
deriving DecidableEq, Repr

/-- Python truthiness of `'progressDetail' in progress and progress['progressDetail']`:
the key is present and its dictionary value is non-empty. -/
def pdTruthy (r : PushRecord) : Bool :=
  match r.progressDetail with
  | some d => !d.isEmpty
  | none => false

/-- A per-layer snapshot entry: structured detail or a plain status string. -/
inductive LayerVal where
  | detail : List (String × String) → LayerVal
  | statusText : String → LayerVal
deriving DecidableEq, Repr

/-- How the push loop aborts: `sys.exit(1)` after logging an error record,
or an unhandled `KeyError` from `progress['status']`. -/
inductive PushAbort where
  | exitOne : String → PushAbort
  | statusKeyError : PushAbort
deriving DecidableEq, Repr

/-- `progress['status']` (app.py line 308): an unhandled `KeyError` when the
key is missing. -/
def readStatus (r : PushRecord) : Except PushAbort LayerVal :=
  match r.status with
  | some s => .ok (.statusText s)
  | none => .error .statusKeyError

/-- The snapshot value stored for a record's layer (app.py lines 305-308):
the truthy `progressDetail` if present, otherwise the `status` string. -/
def layerUpdate (r : PushRecord) : Except PushAbort LayerVal :=
  match r.progressDetail with
  | some d => if d.isEmpty then readStatus r else .ok (.detail d)
  | none => readStatus r

/-- Python dictionary assignment `layers[id] = v` on an association list. -/
def updateLayer (layers : List (String × LayerVal)) (i : String) (v : LayerVal) :
    List (String × LayerVal) :=
  if layers.any (fun p => p.1 = i) then
    layers.map (fun p => if p.1 = i then (i, v) else p)
  else layers ++ [(i, v)]

/-- The `for line in client.push(...)` loop (app.py lines 298-311) over
time-stamped records: returns the emission times of the aggregated snapshot
and the abort, if any. -/
def pushLoop (lastEmit : ℚ) (layers : List (String × LayerVal)) :
    List (ℚ × PushRecord) → List ℚ × Option PushAbort
  | [] => ([], none)
  | (t, r) :: rest =>
    match r.error with
    | some e => ([], some (.exitOne e))
    | none =>
      match r.id with
      | none => pushLoop lastEmit layers rest
      | some i =>
        match layerUpdate r with
        | .error a => ([], some a)
        | .ok v =>
          let layers2 := updateLayer layers i v
          if lastEmit + 3 / 2 < t then
            let res := pushLoop t layers2 rest
            (t :: res.1, res.2)
          else pushLoop lastEmit layers2 rest

/-- `Repo2Docker.push_image`: `layers = {}` and `last_emit_time = time.time()`
(app.py lines 296-297), then the push loop. -/
def pushImage (startTime : ℚ) (timedRecords : List (ℚ × PushRecord)) :
    List ℚ × Option PushAbort :=
  pushLoop startTime [] timedRecords

theorem pushLoop_emit_gap (trs : List (ℚ × PushRecord)) (lastEmit : ℚ)
    (layers : List (String × LayerVal))
    (h : List.Pairwise (· ≤ ·) (lastEmit :: trs.map Prod.fst)) :
    List.Chain' (fun a b => a + 3 / 2 < b)
      (lastEmit :: (pushLoop lastEmit layers trs).1) := by
  induction trs generalizing lastEmit layers with
  | nil => simp [pushLoop]
  | cons p rest ih =>
    obtain ⟨t, r⟩ := p
    have hskip : List.Pairwise (· ≤ ·) (lastEmit :: rest.map Prod.fst) :=
      h.sublist (by
        refine List.Sublist.cons₂ lastEmit ?_
        exact List.sublist_cons_self t (rest.map Prod.fst))
    have htail : List.Pairwise (· ≤ ·) (t :: rest.map Prod.fst) := h.of_cons
    rcases herr : r.error with _ | e
    · rcases hid : r.id with _ | i
      · simpa [pushLoop, herr, hid] using ih lastEmit layers hskip
      · rcases hupd : layerUpdate r with a | v
        · simp [pushLoop, herr, hid, hupd]
        · by_cases hgap : lastEmit + 3 / 2 < t
          · have hch := ih t (updateLayer layers i v) htail
            have hred : (pushLoop lastEmit layers ((t, r) :: rest)).1
                = t :: (pushLoop t (updateLayer layers i v) rest).1 := by
              simp [pushLoop, herr, hid, hupd, hgap]
            rw [hred]
            exact List.chain'_cons.mpr ⟨hgap, hch⟩
          · simpa [pushLoop, herr, hid, hupd, hgap] using
              ih lastEmit (updateLayer layers i v) hskip
    · simp [pushLoop, herr]

theorem pairwise_gap_window (l : List ℚ)
    (h : List.Pairwise (fun a b => a + 3 / 2 < b) l) (a : ℚ) :
    (l.filter (fun t => decide (a ≤ t) && decide (t < a + 3 / 2))).length ≤ 1 := by
  induction l with
  | nil => simp
  | cons x xs ih =>
    by_cases hx : a ≤ x ∧ x < a + 3 / 2
    · have hxs : xs.filter (fun t => decide (a ≤ t) && decide (t < a + 3 / 2)) = [] := by
        refine List.filter_eq_nil_iff.mpr ?_
        intro y hy
        have hgap : x + 3 / 2 < y := (List.pairwise_cons.mp h).1 y hy
        simp only [Bool.and_eq_true, decide_eq_true_eq, not_and, not_lt]
        intro _
        linarith [hx.1]
      simp [List.filter_cons, hx.1, hx.2, hxs]
    · have : (decide (a ≤ x) && decide (x < a + 3 / 2)) = false := by
        rcases not_and_or.mp hx with hc | hc <;> simp [hc]
      simp only [List.filter_cons, this, if_false]
      exact ih (List.pairwise_cons.mp h).2

/-- C6: push progress emission is time-throttled, not event-count-throttled.
Provided the wall clock never runs backwards across the loop (the start
time and the successive record time stamps are nondecreasing), consecutive
emission times of the aggregated layer snapshot are always more than 1.5
seconds apart, and hence any half-open 1.5-second window `[a, a + 3/2)`
contains at most one emission — in particular an arbitrarily large burst of
records inside 0.1 seconds yields at most one emission per 1.5-second
window. -/
theorem C6_push_throttle (startTime : ℚ) (trs : List (ℚ × PushRecord))
    (hclock : List.Chain' (· ≤ ·) (startTime :: trs.map Prod.fst)) :
    List.Chain' (fun a b => a + 3 / 2 < b) (pushImage startTime trs).1
    ∧ ∀ a : ℚ, ((pushImage startTime trs).1.filter
        (fun t => decide (a ≤ t) && decide (t < a + 3 / 2))).length ≤ 1 := by
  haveI : IsTrans ℚ (fun a b : ℚ => a + 3 / 2 < b) :=
    ⟨fun a b c hab hbc => show a + 3 / 2 < c by
      have h1 : a + 3 / 2 < b := hab
      have h2 : b + 3 / 2 < c := hbc
      linarith⟩
  have hp : List.Pairwise (· ≤ ·) (startTime :: trs.map Prod.fst) :=
    List.chain'_iff_pairwise.mp hclock
  have hchain := pushLoop_emit_gap trs startTime [] hp
  refine ⟨hchain.tail, fun a => pairwise_gap_window _ ?_ a⟩
  exact List.chain'_iff_pairwise.mp hchain.tail

/-- Witness for C6: a record inside the throttle window produces no
emission; a record 9/4 seconds in produces the single emission of its
window. -/
theorem C6_push_throttle_witness :
    List.Chain' (fun a b => a + 3 / 2 < b)
      (pushImage 0 [(1, { id := some "a", status := some "s" }),
        (9 / 4, { id := some "a", status := some "t" })]).1
    ∧ ((pushImage 0 [(1, { id := some "a", status := some "s" }),
        (9 / 4, { id := some "a", status := some "t" })]).1.filter
          (fun t => decide ((0 : ℚ) ≤ t) && decide (t < 0 + 3 / 2))).length ≤ 1 := by
  have hclock : List.Chain' (· ≤ ·)
      ((0 : ℚ) :: ([(1, ({ id := some "a", status := some "s" } : PushRecord)),
        (9 / 4, { id := some "a", status := some "t" })].map Prod.fst)) := by
    simp only [List.map_cons, List.map_nil, List.chain'_cons, List.chain'_singleton,
      and_true]
    norm_num
  have h := C6_push_throttle 0
    [(1, { id := some "a", status := some "s" }),
      (9 / 4, { id := some "a", status := some "t" })] hclock
  exact ⟨h.1, h.2 0⟩

/-- C9: the publisher's per-record snapshot update is total only for
well-shaped records.  For a record with an `id`, no `error`, and a
non-truthy `progressDetail`, the update reads the record's `status` key:
when `status` is present the snapshot entry becomes that status string,
and when it is absent the loop aborts with the unhandled `KeyError` from
`progress['status']` — which is distinct from every `sys.exit(1)`-reported
push failure; a record with a truthy `progressDetail` never reads `status`
(its update does not depend on the `status` field at all). -/
theorem C9_push_status_read (r : PushRecord) (i : String) (t lastEmit : ℚ)
    (layers : List (String × LayerVal)) :
    (r.error = none → r.id = some i → pdTruthy r = false → r.status = none →
        pushLoop lastEmit layers [(t, r)] = ([], some .statusKeyError))
    ∧ (pdTruthy r = false → ∀ s, r.status = some s →
        layerUpdate r = .ok (.statusText s))
    ∧ (pdTruthy r = true → ∀ s₁ s₂ : Option String,
        layerUpdate { r with status := s₁ } = layerUpdate { r with status := s₂ })
    ∧ (∀ e, (PushAbort.statusKeyError : PushAbort) ≠ .exitOne e) := by
  refine ⟨?_, ?_, ?_, by intro e; simp⟩
  · intro he hi hpd hs
    rcases hd : r.progressDetail with _ | d
    · simp [pushLoop, he, hi, layerUpdate, hd, readStatus, hs]
    · have hde : d.isEmpty = true := by
        simpa [pdTruthy, hd] using hpd
      simp [pushLoop, he, hi, layerUpdate, hd, hde, readStatus, hs]
  · intro hpd s hs
    rcases hd : r.progressDetail with _ | d
    · simp [layerUpdate, hd, readStatus, hs]
    · have hde : d.isEmpty = true := by
        simpa [pdTruthy, hd] using hpd
      simp [layerUpdate, hd, hde, readStatus, hs]
  · intro hpd s₁ s₂
    rcases hd : r.progressDetail with _ | d
    · simp [pdTruthy, hd] at hpd
    · have hde : d.isEmpty = false := by
        simpa [pdTruthy, hd] using hpd
      simp [layerUpdate, hd, hde]

/-- Witness for C9: a record whose `progressDetail` is present but empty
(hence falsy) and whose `status` key is missing aborts the loop with the
`KeyError`, not with a reported push failure. -/
theorem C9_push_status_read_witness :
    pushLoop 0 [] [(1, { id := some "abc", progressDetail := some [] })]
      = ([], some .statusKeyError) :=
  (C9_push_status_read { id := some "abc", progressDetail := some [] }
    "abc" 1 0 []).1 rfl rfl rfl rfl
